import Mathlib

/-!
Verification development for the MTGplaytester card engine (card.py, play.py).

Modelling conventions:
* Python strings holding a type line are checked with substring tests such as
  `Card.CREATURE in self.__type`; since no type or supertype name of the program
  is a substring of another, a type line is modelled as a list of type tokens
  and the substring test as list membership.
* Keywords are modelled as an enumeration mirroring `Card.KEYWORDS`.
* Python objects are mutated in place; the model is a state-passing translation
  in which every mutator returns the updated record.  Zone containers hold the
  card values current at the time of insertion; Python aliasing (a list element
  is the very object that a later in-place mutation changes) is reproduced by
  inserting the post-mutation value.
* Exceptions are modelled with an explicit `Option String` error component so
  that mutations performed before a raise remain visible, exactly as the
  mutations of Python globals persist when an exception propagates.
* `random.shuffle` is modelled by an arbitrary reordering function passed in as
  a parameter.
-/

namespace MTG

/-- Type and supertype tokens of a type line (`Card.TYPES`, `Card.SUPERTYPES`). -/
inductive CardType
  | artifact | creature | enchantment | emblem | instant | land
  | planeswalker | snow | sorcery | token | tribal | basic | legendary
deriving DecidableEq, Repr

/-- The keyword abilities of `Card.KEYWORDS`. -/
inductive Keyword
  | firstStrike | doubleStrike | lifelink | vigilance | flying | deathtouch
  | haste | trample | hexproof | shroud | persistKw | undying | flash
  | forestwalk | islandwalk | mountainwalk | plainswalk | swampwalk
  | nonbasicLandwalk | wither | infect | morph | megamorph | indestructible
  | skulk | defender | menace | prowess | reach | changeling | shadow
deriving DecidableEq, Repr

/-- The eight zone tags of `Card.ZONES`. -/
inductive Zone
  | battlefield | command | exile | graveyard | hand | library | top | bottom
deriving DecidableEq, Repr

/-- The base (immutable-at-construction) data of one face of a card:
name, colour string, type line, subtype line, rules text, base power,
base toughness, base counters, and the keyword list produced by the
rules-text parse of that face. -/
structure Face where
  name : String := ""
  color : String := ""
  typeLine : List CardType := []
  subtype : String := ""
  text : String := ""
  power : Int := 0
  toughness : Int := 0
  counters : Int := 0
  keywords : List Keyword := []
deriving DecidableEq, Repr

/-- The card entity of card.py.  `front` holds the base fields of the card
itself; `backSide` is the linked back face (`self.__backSide`), populated for
transform, split and morph cards.  The remaining fields are the mutable
fields of the Python object. -/
structure Card where
  front : Face := {}
  backSide : Option Face := none
  flip : Bool := false
  split : Bool := false
  commander : Bool := false
  zone : Zone := Zone.library
  tapped : Bool := false
  transformed : Bool := false
  facedown : Bool := false
  morphFlag : Bool := false
  summoningSickness : Bool := false
  powerMod : Int := 0
  toughnessMod : Int := 0
  countersMod : Int := 0
  plusone : Int := 0
  keywordMods : List Keyword := []
  anthemPowerBonus : Int := 0
  anthemToughnessBonus : Int := 0
  anthemKeywordMod : List Keyword := []
deriving DecidableEq, Repr

namespace Card

/-- The face whose base data the accessors read: the linked back face while
the card is transformed or face down, otherwise the front face.  (In the
program a card is only ever transformed or face down once a back face is
linked; the `getD` default covers states the program cannot reach.) -/
def shownFace (c : Card) : Face :=
  if c.transformed || c.facedown then c.backSide.getD c.front else c.front

/-- Accessor `Card.power`: for creatures (front type line is what the Python
guard `Card.CREATURE in self.__type` tests), base power of the shown face plus
temporary delta, anthem bonus and +1/+1 delta, clamped at zero from below;
`none` for non-creatures (Python returns None). -/
def power (c : Card) : Option Int :=
  if CardType.creature ∈ c.front.typeLine then
    let val := c.shownFace.power + c.powerMod + c.anthemPowerBonus + c.plusone
    some (if val < 0 then 0 else val)
  else none

/-- Accessor `Card.toughness`, analogous to `power`. -/
def toughness (c : Card) : Option Int :=
  if CardType.creature ∈ c.front.typeLine then
    let val := c.shownFace.toughness + c.toughnessMod + c.anthemToughnessBonus + c.plusone
    some (if val < 0 then 0 else val)
  else none

/-- Accessor `Card.counters`: base counters of the shown face plus the counter
delta plus the absolute value of the +1/+1 delta. -/
def counters (c : Card) : Int :=
  c.shownFace.counters + c.countersMod + |c.plusone|

/-- Accessor `Card.keywords`: parsed keywords of the front face plus anthem
keyword bonuses plus temporarily granted keywords.  Note: unlike the other
accessors this one never consults the back face. -/
def keywords (c : Card) : List Keyword :=
  c.front.keywords ++ c.anthemKeywordMod ++ c.keywordMods

/-- Accessor `Card.name`. -/
def name (c : Card) : String := c.shownFace.name

/-- Accessor `Card.color`. -/
def color (c : Card) : String := c.shownFace.color

/-- Accessor `Card.type`. -/
def type (c : Card) : List CardType := c.shownFace.typeLine

/-- Accessor `Card.subtype`. -/
def subtype (c : Card) : String := c.shownFace.subtype

/-- Accessor `Card.rulestext`. -/
def rulestext (c : Card) : String := c.shownFace.text

/-- Python substring test `pat in s`, used on rules text. -/
def textContains (s pat : String) : Bool :=
  decide (pat.data <:+: s.data)

/-- Mutator `Card.modCounters`: only on the battlefield; after adding, the
delta is floored so that base counters plus delta cannot be negative
(`self.__counters` in that test is the front base counter field). -/
def modCounters (c : Card) (n : Int) : Card :=
  if c.zone = Zone.battlefield then
    let cm := c.countersMod + n
    if c.front.counters + cm < 0 then { c with countersMod := -c.front.counters }
    else { c with countersMod := cm }
  else c

/-- Mutator `Card.modKeywords`: the Python guard
`keyword in Card.KEYWORDS and keyword != MORPH and keyword != MEGAMORPH`
(the first conjunct is always true for the keyword enumeration); a keyword not
already reported by `keywords` is appended to the temporary keyword list, and
haste clears summoning sickness.  The inner Morph/Megamorph branch of the
source is unreachable under the guard and is omitted.  There is no zone
check. -/
def modKeywords (c : Card) (k : Keyword) : Card :=
  if k ≠ Keyword.morph ∧ k ≠ Keyword.megamorph then
    if k ∉ c.keywords then
      let c := { c with keywordMods := c.keywordMods ++ [k] }
      if k = Keyword.haste then { c with summoningSickness := false } else c
    else c
  else c

/-- Mutator `Card.modPlusOne`: creatures on the battlefield only. -/
def modPlusOne (c : Card) (n : Int) : Card :=
  if CardType.creature ∈ c.front.typeLine ∧ c.zone = Zone.battlefield then
    { c with plusone := c.plusone + n }
  else c

/-- Mutator `Card.modPower`: creatures on the battlefield only. -/
def modPower (c : Card) (n : Int) : Card :=
  if CardType.creature ∈ c.front.typeLine ∧ c.zone = Zone.battlefield then
    { c with powerMod := c.powerMod + n }
  else c

/-- Mutator `Card.modToughness`: creatures on the battlefield only. -/
def modToughness (c : Card) (n : Int) : Card :=
  if CardType.creature ∈ c.front.typeLine ∧ c.zone = Zone.battlefield then
    { c with toughnessMod := c.toughnessMod + n }
  else c

/-- `Card.transform`: toggles the transformed flag, but only for flip
(transform) cards. -/
def transform (c : Card) : Card :=
  if c.flip then { c with transformed := !c.transformed } else c

/-- `Card.leave` (left the battlefield): calls `transform` when transformed or
face down, zeroes the temporary power/toughness/counter deltas, untaps, and
restores summoning sickness for creatures whose parsed front keywords do not
include haste.  Granted keywords, the +1/+1 delta and the facedown flag are
untouched. -/
def leave (c : Card) : Card :=
  let c := if c.transformed || c.facedown then c.transform else c
  let c := { c with powerMod := 0, toughnessMod := 0, countersMod := 0, tapped := false }
  if CardType.creature ∈ c.front.typeLine ∧ Keyword.haste ∉ c.front.keywords then
    { c with summoningSickness := true }
  else c

/-- `Card.enter` (entered the battlefield): taps the card when its text says it
enters tapped, and clears summoning sickness for cards whose type line is
exactly `Creature` (the source compares `self.__type == Card.CREATURE` with
string equality) with haste among the parsed keywords.  The two trailing
trigger checks of the source are `pass` and are omitted. -/
def enter (c : Card) : Card :=
  let c :=
    if textContains c.front.text (c.front.name ++ (" enters the battlefield tapped")) then
      { c with tapped := true }
    else c
  if c.front.typeLine = [CardType.creature] ∧ Keyword.haste ∈ c.front.keywords then
    { c with summoningSickness := false }
  else c

/-- `Card.move`: the zone-transition primitive.  Commanders are redirected to
the command zone for any destination other than hand or battlefield; emblems
may only go to the battlefield; no other card may be put into the command
zone; a card leaving the battlefield gets the `leave` side effects after its
zone tag is updated. -/
def move (c : Card) (z : Zone) : Except String Card :=
  let leaves := c.zone = Zone.battlefield ∧ z ≠ Zone.battlefield
  if c.commander then
    let c :=
      if z ≠ Zone.hand ∧ z ≠ Zone.battlefield then { c with zone := Zone.command }
      else { c with zone := z }
    Except.ok (if leaves then c.leave else c)
  else if CardType.emblem ∈ c.front.typeLine then
    if z ≠ Zone.battlefield then
      Except.error ("Cannot interact with emblems on the battlefield.")
    else Except.ok { c with zone := Zone.battlefield }
  else if z ≠ Zone.command then
    let c := { c with zone := z }
    Except.ok (if leaves then c.leave else c)
  else Except.error ("Only the commander can be put in the command zone.")

/-- `Card.play`: instants and sorceries resolve to the graveyard (or exile
when the text contains `Exile <name>`); artifact, creature, enchantment, land
and planeswalker cards go to the battlefield and `enter`; anything else is
left unchanged. -/
def play (c : Card) : Card :=
  if CardType.instant ∈ c.front.typeLine ∨ CardType.sorcery ∈ c.front.typeLine then
    if textContains c.front.text (("Exile ") ++ c.front.name) then
      { c with zone := Zone.exile }
    else { c with zone := Zone.graveyard }
  else if CardType.artifact ∈ c.front.typeLine ∨ CardType.creature ∈ c.front.typeLine ∨
      CardType.enchantment ∈ c.front.typeLine ∨ CardType.land ∈ c.front.typeLine then
    ({ c with zone := Zone.battlefield }).enter
  else if CardType.planeswalker ∈ c.front.typeLine then
    ({ c with zone := Zone.battlefield }).enter
  else c

/-- `Card.discard`: hand to graveyard zone tag. -/
def discard (c : Card) : Card :=
  if c.zone = Zone.hand then { c with zone := Zone.graveyard } else c

/-- `Card.morph`: toggles face down, only for cards whose parse found
Morph or Megamorph. -/
def morph (c : Card) : Card :=
  if c.morphFlag then { c with facedown := !c.facedown } else c

end Card

/-!  The game-level state and operations of play.py.  The zone containers are
the global lists `library`, `hand`, `field`, `grave`, `exiled`; the win flags
and the reveal/commander bookkeeping are the corresponding globals.  The
Python comparison `card != commander` (object identity against the commander
global) is modelled with the commander flag, which in the program is set on
exactly that card.  Name-to-card resolution (`getCard`) and string-to-zone
resolution (`getZoneNameFromString`) are read-only and happen before any
mutation; the operations below take the already-resolved card and zones. -/

/-- The global game state of play.py relevant to the engine claims. -/
structure GameState where
  library : List Card := []
  hand : List Card := []
  field : List Card := []
  grave : List Card := []
  exiled : List Card := []
  p1Win : Bool := false
  p2Win : Bool := false
  revealed : Bool := false
  commandPlayCount : Nat := 0
deriving DecidableEq, Repr

/-- `checkVictory`: the game is reported over when either win flag is set. -/
def checkVictory (g : GameState) : Bool :=
  g.p1Win || g.p2Win

/-- `draw(number)`: pop the head of the library `number` times, set each card
to the hand zone and append it to the hand.  An empty library raises
IndexError, which the source catches; the handler executes `p2Win = True`
WITHOUT a `global p2Win` declaration, so it binds a function-local name and
the global win flag is unchanged.  A popped card whose zone tag is not
Library makes `Card.draw` raise; that error is not an IndexError and
propagates (second component), with the mutations so far kept. -/
def draw (g : GameState) (n : Nat) : GameState × Option String :=
  match n with
  | 0 => (g, none)
  | n + 1 =>
    match g.library with
    | [] => (g, none)
    | c :: rest =>
      if c.zone = Zone.library then
        draw { g with library := rest, hand := g.hand ++ [{ c with zone := Zone.hand }] } n
      else ({ g with library := rest }, some ("ZoneError"))

/-- `discard(card)`: graveyard zone tag via `Card.discard`, removal from the
hand list, insertion at the head of the graveyard list. -/
def discard (g : GameState) (c : Card) : GameState :=
  { g with hand := g.hand.erase c, grave := c.discard :: g.grave }

/-- `kill(card)` (single-card branch; the all-of-a-type branch takes a type
name, not a card): indestructible cards are untouched; otherwise the card is
moved to the graveyard zone, removed from the battlefield list, and, unless
it is a token (judged on the post-move shown type) or the commander, inserted
at the head of the graveyard list. -/
def kill (g : GameState) (c : Card) : GameState × Option String :=
  if Keyword.indestructible ∈ c.keywords then (g, none)
  else
    match c.move Zone.graveyard with
    | Except.error e => (g, some e)
    | Except.ok c1 =>
      let g := { g with field := g.field.erase c }
      if CardType.token ∉ c1.type ∧ ¬c.commander then
        ({ g with grave := c1 :: g.grave }, none)
      else (g, none)

/-- `sacrifice(card)` (single-card branch): like `kill` without the
indestructible check. -/
def sacrifice (g : GameState) (c : Card) : GameState × Option String :=
  match c.move Zone.graveyard with
  | Except.error e => (g, some e)
  | Except.ok c1 =>
    let g := { g with field := g.field.erase c }
    if CardType.token ∉ c1.type ∧ ¬c.commander then
      ({ g with grave := c1 :: g.grave }, none)
    else (g, none)

/-- `exile(card)` (single-card branch): move to the exile zone, removal from
the battlefield list, and insertion at the head of the exile list unless the
card is a token or the commander. -/
def exileCard (g : GameState) (c : Card) : GameState × Option String :=
  match c.move Zone.exile with
  | Except.error e => (g, some e)
  | Except.ok c1 =>
    let g := { g with field := g.field.erase c }
    if CardType.token ∉ c1.type ∧ ¬c.commander then
      ({ g with exiled := c1 :: g.exiled }, none)
    else (g, none)

/-- The list of cards the state-based sweep collects for destruction:
battlefield creatures with effective toughness 0 and battlefield
planeswalkers with counter count 0 (a card matching both tests is collected
twice, as in the source). -/
def stateBasedRemoving (g : GameState) : List Card :=
  g.field.flatMap fun c =>
    (if CardType.creature ∈ c.type ∧ c.toughness = some 0 then [c] else []) ++
    (if CardType.planeswalker ∈ c.type ∧ c.counters = 0 then [c] else [])

/-- Sequential `kill` over a list of cards, stopping at the first raised
error (the loop body of `stateBased`). -/
def killList (g : GameState) : List Card → GameState × Option String
  | [] => (g, none)
  | c :: cs =>
    match kill g c with
    | (g1, none) => killList g1 cs
    | (g1, some e) => (g1, some e)

/-- `stateBased()`: collect, then kill. -/
def stateBased (g : GameState) : GameState × Option String :=
  killList g (stateBasedRemoving g)

/-- Step 1 of the game-level `move`: removal of the selected card from the
source list.  Only a move whose source is the Library zone proper sets the
`shuffleLibrary` flag, so only that case reshuffles; Top and Bottom read from
the library list without a shuffle; the command zone has no backing list. -/
def moveSourceRemoved (g : GameState) (fromZone : Zone) (c : Card)
    (shuf : List Card → List Card) : GameState :=
  match fromZone with
  | Zone.hand => { g with hand := g.hand.erase c }
  | Zone.battlefield => { g with field := g.field.erase c }
  | Zone.exile => { g with exiled := g.exiled.erase c }
  | Zone.graveyard => { g with grave := g.grave.erase c }
  | Zone.library => { g with library := shuf (g.library.erase c) }
  | Zone.command => g
  | Zone.top => { g with library := g.library.erase c }
  | Zone.bottom => { g with library := g.library.erase c }

/-- The zone tag passed to `Card.move` at the end of the game-level `move`:
Top and Bottom are rewritten to Library inside their insertion branches. -/
def moveTargetTag (toZone : Zone) : Zone :=
  if toZone = Zone.top ∨ toZone = Zone.bottom then Zone.library else toZone

/-- Step 2 of the game-level `move`: insertion of the card into the
destination list.  Tokens (judged on the pre-move shown type) are inserted
nowhere.  Destination Library appends and then shuffles; Top inserts at the
head of the library and Bottom appends, without shuffling; battlefield, hand
and exile append (exile therefore receives the card at the END of the list);
graveyard inserts at the head; the command zone has no list. -/
def moveInsert (g : GameState) (toZone : Zone) (c cIns : Card)
    (shuf : List Card → List Card) : GameState :=
  if CardType.token ∉ c.type then
    match toZone with
    | Zone.library => { g with library := shuf (g.library ++ [cIns]) }
    | Zone.top => { g with library := cIns :: g.library }
    | Zone.bottom => { g with library := g.library ++ [cIns] }
    | Zone.battlefield => { g with field := g.field ++ [cIns] }
    | Zone.hand => { g with hand := g.hand ++ [cIns] }
    | Zone.exile => { g with exiled := g.exiled ++ [cIns] }
    | Zone.graveyard => { g with grave := cIns :: g.grave }
    | Zone.command => g
  else g

/-- The game-level `move(fromZone, toZone, cardArgs)` of play.py, after the
read-only zone and card resolution: the source-list removal (with its shuffle)
happens first; then the card is inserted into the destination list; then the
command-zone guard raises for non-commanders, and finally `Card.move` runs
and may itself raise.  The value visible in the destination list is the
post-`Card.move` card (Python aliasing); when `Card.move` raises, the
inserted card is the unmutated one, and all list mutations made before the
raise persist.  (When the command-zone guard fires, `Card.move` would also
fail, so the inserted value is the unmutated card in that case too.) -/
def move (g : GameState) (fromZone toZone : Zone) (c : Card)
    (shuf : List Card → List Card) : GameState × Option String :=
  let g1 := moveSourceRemoved g fromZone c shuf
  let res := c.move (moveTargetTag toZone)
  let cIns := match res with | Except.ok c1 => c1 | Except.error _ => c
  let g2 := moveInsert g1 toZone c cIns shuf
  if toZone = Zone.command ∧ ¬c.commander then
    (g2, some ("Only the commander can be put in the command zone."))
  else
    match res with
    | Except.error e => (g2, some e)
    | Except.ok _ => (g2, none)

/-- The hand/library removal and commander bookkeeping performed by the
game-level `play` before the card resolves. -/
def playRemove (g : GameState) (c : Card) : GameState :=
  let g := if c.commander ∧ c.zone = Zone.command then
      { g with commandPlayCount := g.commandPlayCount + 1 }
    else g
  let g := if c ∈ g.hand then { g with hand := g.hand.erase c } else g
  if g.library.head? = some c then { g with library := g.library.tail } else g

/-- The game-level `play(card)` of play.py (single-card branch): playable when
the card is in hand, is the commander, is a token, or is the revealed top of
the library; otherwise a ZoneError.  After `Card.play` resolves the card, it
is inserted into the list of the zone the card ended up in (graveyard and
exile at the head, battlefield appended, library appended then shuffled; the
Bottom/Top leftovers run `Card.move` to Library after inserting). -/
def play (g : GameState) (c : Card) (shuf : List Card → List Card) :
    GameState × Option String :=
  if c ∈ g.hand ∨ c.commander ∨ CardType.token ∈ c.type ∨
      (g.revealed ∧ g.library.head? = some c) then
    let g := playRemove g c
    let c1 := c.play
    if c1.zone = Zone.graveyard then ({ g with grave := c1 :: g.grave }, none)
    else if c1.zone = Zone.exile then ({ g with exiled := c1 :: g.exiled }, none)
    else if c1.zone = Zone.battlefield then ({ g with field := g.field ++ [c1] }, none)
    else if c1.zone = Zone.library then ({ g with library := shuf (g.library ++ [c1]) }, none)
    else if c1.zone = Zone.bottom then
      let res := c1.move Zone.library
      let cIns := match res with | Except.ok c2 => c2 | Except.error _ => c1
      ({ g with library := g.library ++ [cIns] },
        match res with | Except.error e => some e | Except.ok _ => none)
    else if c1.zone = Zone.top then
      let res := c1.move Zone.library
      let cIns := match res with | Except.ok c2 => c2 | Except.error _ => c1
      ({ g with library := cIns :: g.library },
        match res with | Except.error e => some e | Except.ok _ => none)
    else (g, none)
  else (g, some ("needs to be in your hand to play it."))

/-!  The keyword pass of `Card.__parseText`.  The Python code splits the rules
text on newlines, each line on commas, normalises each word (drop one leading
space, strip trailing whitespace, capitalize) and tests it against
`Card.KEYWORDS`.  The accumulator `things` and the flag `validLine` are
declared OUTSIDE the line loop and never reset, which the theorems below make
precise.  Text is modelled as its character list. -/

/-- Python `text.split(sep)` for a single-character separator. -/
def splitOnChar (sep : Char) : List Char → List (List Char)
  | [] => [[]]
  | c :: cs =>
    if c = sep then [] :: splitOnChar sep cs
    else
      match splitOnChar sep cs with
      | [] => [[c]]
      | l :: ls => (c :: l) :: ls

/-- Python `str.rstrip()`. -/
def pyRstrip (w : List Char) : List Char :=
  (w.reverse.dropWhile Char.isWhitespace).reverse

/-- Python `str.capitalize()`: first character upper-cased, the rest
lower-cased. -/
def pyCapitalize : List Char → List Char
  | [] => []
  | c :: cs => c.toUpper :: cs.map Char.toLower

/-- The word normalisation of the keyword loop: drop one leading space, then
rstrip and capitalize. -/
def normWord (w : List Char) : List Char :=
  let w := match w with
    | ' ' :: rest => rest
    | _ => w
  pyCapitalize (pyRstrip w)

/-- The strings of `Card.KEYWORDS`. -/
def keywordStrings : List (List Char) :=
  [("Changeling").data, ("Deathtouch").data, ("Defender").data,
   ("Double strike").data, ("First strike").data, ("Flash").data,
   ("Flying").data, ("Forestwalk").data, ("Haste").data, ("Hexproof").data,
   ("Indestructible").data, ("Infect").data, ("Islandwalk").data,
   ("Lifelink").data, ("Megamorph").data, ("Menace").data, ("Morph").data,
   ("Mountainwalk").data, ("Persist").data, ("Plainswalk").data,
   ("Prowess").data, ("Reach").data, ("Skulk").data, ("Shadow").data,
   ("Shroud").data, ("Swampwalk").data, ("Trample").data, ("Undying").data,
   ("Vigilance").data, ("Wither").data]

/-- One iteration of the inner word loop: state is (`things`, `validLine`). -/
def wordStep (st : List (List Char) × Bool) (w : List Char) :
    List (List Char) × Bool :=
  let w := normWord w
  if w ∈ keywordStrings then (st.1 ++ [w], st.2) else (st.1, false)

/-- One iteration of the outer line loop: state is
(`things`, `validLine`, `self.__keywords`). -/
def lineStep (st : List (List Char) × Bool × List (List Char))
    (line : List Char) : List (List Char) × Bool × List (List Char) :=
  let p := (splitOnChar ',' line).foldl wordStep (st.1, st.2.1)
  (p.1, p.2, if p.2 then st.2.2 ++ p.1 else st.2.2)

/-- The keyword list produced by the keyword pass of `Card.__parseText` for a
given rules text (after the backslash-to-newline translation of the
constructor). -/
def parseKeywords (text : String) : List (List Char) :=
  ((splitOnChar '\n' text.data).foldl lineStep ([], true, [])).2.2

/-- The normalised tokens of a word list that are recognised keywords. -/
def wordsKw (ws : List (List Char)) : List (List Char) :=
  (ws.map normWord).filter fun w => decide (w ∈ keywordStrings)

/-- Whether every normalised token of a word list is a recognised keyword. -/
def wordsValid (ws : List (List Char)) : Bool :=
  (ws.map normWord).all fun w => decide (w ∈ keywordStrings)

/-- The normalised tokens of one comma-separated line that are recognised
keywords. -/
def keywordTokens (line : List Char) : List (List Char) :=
  wordsKw (splitOnChar ',' line)

/-- Whether every token of a comma-separated line is a recognised keyword. -/
def lineValid (line : List Char) : Bool :=
  wordsValid (splitOnChar ',' line)

/-!  Concrete cards and game states used by the witness and counterexample
theorems. -/

/-- A vanilla 2/2 creature face. -/
def bearFace : Face :=
  { name := ("Bear"), typeLine := [CardType.creature], power := 2, toughness := 2 }

/-- A vanilla 2/2 creature on the battlefield. -/
def bear : Card := { front := bearFace, zone := Zone.battlefield }

/-- The bear after `modPower(-2)`: effectively a 0/2. -/
def bearPow : Card := bear.modPower (-2)

/-- The bear after `modToughness(-2)`: effectively a 2/0. -/
def bearTough : Card := bear.modToughness (-2)

/-- An indestructible 2/2 on the battlefield whose toughness was reduced
to 0. -/
def indBear : Card :=
  { front := { bearFace with name := ("Wall"), keywords := [Keyword.indestructible] },
    zone := Zone.battlefield, toughnessMod := -2 }

/-- Battlefield holding only the 0/2 bear. -/
def g4a : GameState := { field := [bearPow] }

/-- Battlefield holding only the indestructible 2/0 creature. -/
def g4b : GameState := { field := [indBear] }

/-- Battlefield holding only the 2/0 bear. -/
def g4w : GameState := { field := [bearTough] }

/-- The state after the state-based sweep over `g4w`. -/
def g4wRes : GameState := (stateBased g4w).1

/-- A creature on the battlefield with a large negative temporary power
delta. -/
def cNeg : Card := { front := bearFace, zone := Zone.battlefield, powerMod := -5 }

/-- Front face of a transform card, with a parsed keyword. -/
def frontFaceT : Face :=
  { name := ("Front"), color := ("White"), typeLine := [CardType.creature],
    subtype := ("Human"), text := ("Flying"), power := 1, toughness := 1,
    keywords := [Keyword.flying] }

/-- Back face of a transform card, with no keywords of its own. -/
def backFaceT : Face :=
  { name := ("Back"), color := ("Red"), typeLine := [CardType.creature],
    subtype := ("Wolf"), power := 5, toughness := 5, counters := 3 }

/-- The transform card, currently transformed on the battlefield, with
temporary modifiers of its own. -/
def transformedCard : Card :=
  { front := frontFaceT, backSide := some backFaceT, flip := true,
    transformed := true, zone := Zone.battlefield, tapped := true,
    powerMod := 1, countersMod := 2, plusone := 1 }

/-- A creature sitting in its owner's hand. -/
def handCard : Card := { front := bearFace, zone := Zone.hand }

/-- A battlefield card with base counters, for the counter floor. -/
def loyalCard : Card :=
  { front := { name := ("Walker"), typeLine := [CardType.planeswalker], counters := 2 },
    zone := Zone.battlefield }

/-- The vanilla 2/2 face a morph card shows while face down. -/
def morphFace : Face :=
  { name := ("Morph"), typeLine := [CardType.creature], power := 2, toughness := 2 }

/-- A face-down morph creature on the battlefield with a granted keyword;
it is not a flip (transform) card. -/
def morphCard : Card :=
  { front := { name := ("Secret"), typeLine := [CardType.creature], power := 3,
               toughness := 3, text := ("Morph 2") },
    backSide := some morphFace, morphFlag := true, zone := Zone.battlefield,
    facedown := true, tapped := true, keywordMods := [Keyword.flying] }

/-- A plain non-commander card in hand. -/
def oxCard : Card := { front := { name := ("Ox") }, zone := Zone.hand }

/-- A hand holding only `oxCard`. -/
def g6 : GameState := { hand := [oxCard] }

/-- A card that has been in the exile list for a while. -/
def oldExiled : Card := { front := { name := ("Old") }, zone := Zone.exile }

/-- An enchantment on the battlefield. -/
def auraCard : Card :=
  { front := { name := ("Aura"), typeLine := [CardType.enchantment] },
    zone := Zone.battlefield }

/-- A battlefield with one enchantment and a non-empty exile list. -/
def g8 : GameState := { field := [auraCard], exiled := [oldExiled] }

/-- A game state with an empty library. -/
def g9 : GameState := { library := [], hand := [oxCard] }

/-!  Theorems. -/

/-- The clamp-at-zero branch of the power/toughness accessors is a max. -/
theorem ite_lt_zero_eq_max (v : Int) : (if v < 0 then (0 : Int) else v) = max 0 v := by
  split
  · exact (max_eq_left (by omega)).symm
  · exact (max_eq_right (by omega)).symm

/-- C1: for every creature card, the power accessor returns
max(0, base power of the shown face + temporary power delta + anthem power
bonus + +1/+1 delta), the toughness accessor satisfies the analogous law,
and neither accessor ever returns a negative value. -/
theorem power_toughness_clamped (c : Card) (h : CardType.creature ∈ c.front.typeLine) :
    c.power = some (max 0 (c.shownFace.power + c.powerMod + c.anthemPowerBonus + c.plusone)) ∧
    c.toughness = some (max 0 (c.shownFace.toughness + c.toughnessMod + c.anthemToughnessBonus + c.plusone)) ∧
    (∀ v, c.power = some v → 0 ≤ v) ∧
    (∀ v, c.toughness = some v → 0 ≤ v) := by
  have hp : c.power =
      some (max 0 (c.shownFace.power + c.powerMod + c.anthemPowerBonus + c.plusone)) := by
    simp [Card.power, h, ite_lt_zero_eq_max]
  have ht : c.toughness =
      some (max 0 (c.shownFace.toughness + c.toughnessMod + c.anthemToughnessBonus + c.plusone)) := by
    simp [Card.toughness, h, ite_lt_zero_eq_max]
  refine ⟨hp, ht, ?_, ?_⟩
  · intro v hv
    rw [hp] at hv
    injection hv with hv
    exact hv ▸ le_max_left 0 _
  · intro v hv
    rw [ht] at hv
    injection hv with hv
    exact hv ▸ le_max_left 0 _

/-- Witness for C1 at a battlefield 2/2 with a -5 temporary power delta. -/
theorem power_toughness_clamped_witness :
    CardType.creature ∈ cNeg.front.typeLine ∧
    (cNeg.power = some (max 0 (cNeg.shownFace.power + cNeg.powerMod + cNeg.anthemPowerBonus + cNeg.plusone)) ∧
     cNeg.toughness = some (max 0 (cNeg.shownFace.toughness + cNeg.toughnessMod + cNeg.anthemToughnessBonus + cNeg.plusone)) ∧
     (∀ v, cNeg.power = some v → 0 ≤ v) ∧
     (∀ v, cNeg.toughness = some v → 0 ≤ v)) :=
  ⟨by decide, power_toughness_clamped cNeg (by decide)⟩

/-- C10: the counters accessor returns base counters + counter delta +
absolute value of the +1/+1 delta, the base coming from the back face while
the card is transformed or face down and from the front face otherwise. -/
theorem counters_abs_law (c : Card) (b : Face) :
    (c.backSide = some b → (c.transformed || c.facedown) = true →
      c.counters = b.counters + c.countersMod + |c.plusone|) ∧
    ((c.transformed || c.facedown) = false →
      c.counters = c.front.counters + c.countersMod + |c.plusone|) := by
  constructor
  · intro hb ht
    simp [Card.counters, Card.shownFace, ht, hb]
  · intro hf
    simp [Card.counters, Card.shownFace, hf]

/-- Witness for C10: a transformed card with back-face base counters 3,
counter delta 2 and +1/+1 delta 1 reports 6 counters. -/
theorem counters_abs_law_witness :
    transformedCard.backSide = some backFaceT ∧
    (transformedCard.transformed || transformedCard.facedown) = true ∧
    transformedCard.counters =
      backFaceT.counters + transformedCard.countersMod + |transformedCard.plusone| :=
  ⟨by decide, by decide,
    (counters_abs_law transformedCard backFaceT).1 (by decide) (by decide)⟩

/-- C2 counterexample: a transformed card whose back face has no keywords
still reports the front face's parsed keyword through the keywords accessor,
so that accessor does not substitute the back face's base data. -/
theorem transformed_keywords_counterexample :
    (transformedCard.transformed || transformedCard.facedown) = true ∧
    transformedCard.backSide = some backFaceT ∧
    backFaceT.keywords = [] ∧
    transformedCard.anthemKeywordMod = [] ∧
    transformedCard.keywordMods = [] ∧
    transformedCard.keywords = [Keyword.flying] := by decide

/-- C2 as amended: while transformed or face down, the name, color, type,
subtype, rules-text, counters, power and toughness accessors report the
linked back face's base data combined with this card's own modifiers, and
with neither flag set they report the front face's base data with the same
modifiers; the keywords accessor, however, always reports the front face's
parsed keywords plus this card's keyword modifiers. -/
theorem transformed_accessors_amended (c : Card) (b : Face)
    (hb : c.backSide = some b) :
    ((c.transformed || c.facedown) = true →
      c.name = b.name ∧ c.color = b.color ∧ c.type = b.typeLine ∧
      c.subtype = b.subtype ∧ c.rulestext = b.text ∧
      c.counters = b.counters + c.countersMod + |c.plusone| ∧
      (CardType.creature ∈ c.front.typeLine →
        c.power = some (max 0 (b.power + c.powerMod + c.anthemPowerBonus + c.plusone)) ∧
        c.toughness = some (max 0 (b.toughness + c.toughnessMod + c.anthemToughnessBonus + c.plusone)))) ∧
    ((c.transformed || c.facedown) = false →
      c.name = c.front.name ∧ c.color = c.front.color ∧ c.type = c.front.typeLine ∧
      c.subtype = c.front.subtype ∧ c.rulestext = c.front.text ∧
      c.counters = c.front.counters + c.countersMod + |c.plusone| ∧
      (CardType.creature ∈ c.front.typeLine →
        c.power = some (max 0 (c.front.power + c.powerMod + c.anthemPowerBonus + c.plusone)) ∧
        c.toughness = some (max 0 (c.front.toughness + c.toughnessMod + c.anthemToughnessBonus + c.plusone)))) ∧
    c.keywords = c.front.keywords ++ c.anthemKeywordMod ++ c.keywordMods := by
  refine ⟨?_, ?_, rfl⟩
  · intro ht
    have hs : c.shownFace = b := by simp [Card.shownFace, ht, hb]
    refine ⟨by simp [Card.name, hs], by simp [Card.color, hs], by simp [Card.type, hs],
      by simp [Card.subtype, hs], by simp [Card.rulestext, hs],
      by simp [Card.counters, hs], ?_⟩
    intro hcr
    constructor <;> simp [Card.power, Card.toughness, hcr, hs, ite_lt_zero_eq_max]
  · intro hf
    have hs : c.shownFace = c.front := by simp [Card.shownFace, hf]
    refine ⟨by simp [Card.name, hs], by simp [Card.color, hs], by simp [Card.type, hs],
      by simp [Card.subtype, hs], by simp [Card.rulestext, hs],
      by simp [Card.counters, hs], ?_⟩
    intro hcr
    constructor <;> simp [Card.power, Card.toughness, hcr, hs, ite_lt_zero_eq_max]

/-- Witness for the amended C2 at the concrete transformed card. -/
theorem transformed_accessors_amended_witness :
    transformedCard.backSide = some backFaceT ∧
    (transformedCard.transformed || transformedCard.facedown) = true ∧
    transformedCard.name = backFaceT.name :=
  ⟨by decide, by decide,
    ((transformed_accessors_amended transformedCard backFaceT (by decide)).1 (by decide)).1⟩

/-- C3 counterexample: the keyword grant is applied to a card in hand, so it
is not a no-op off the battlefield. -/
theorem modKeywords_off_battlefield_counterexample :
    handCard.zone ≠ Zone.battlefield ∧ handCard.keywordMods = [] ∧
    (handCard.modKeywords Keyword.flying).keywordMods = [Keyword.flying] ∧
    handCard.modKeywords Keyword.flying ≠ handCard := by decide

/-- C3 as amended: modPower, modToughness, modCounters and modPlusOne leave a
card that is not on the battlefield unchanged; on the battlefield modCounters
keeps base counters plus delta non-negative; the keyword grant applies in any
zone, appending any recognised non-Morph/Megamorph keyword not already
present. -/
theorem mutators_zone_guard_amended (c : Card) (n : Int) (k : Keyword) :
    (c.zone ≠ Zone.battlefield →
      c.modPower n = c ∧ c.modToughness n = c ∧ c.modCounters n = c ∧ c.modPlusOne n = c) ∧
    (c.zone = Zone.battlefield → 0 ≤ c.front.counters + (c.modCounters n).countersMod) ∧
    (k ≠ Keyword.morph → k ≠ Keyword.megamorph → k ∉ c.keywords →
      (c.modKeywords k).keywordMods = c.keywordMods ++ [k]) := by
  refine ⟨?_, ?_, ?_⟩
  · intro hz
    refine ⟨?_, ?_, ?_, ?_⟩ <;>
      simp [Card.modPower, Card.modToughness, Card.modCounters, Card.modPlusOne, hz]
  · intro hz
    simp only [Card.modCounters, hz, if_true]
    split
    · simp
    · simp
      omega
  · intro h1 h2 h3
    by_cases hk : k = Keyword.haste
    · subst hk
      simp [Card.modKeywords, h1, h2, h3]
    · simp [Card.modKeywords, h1, h2, h3, hk]

/-- Witness for the amended C3: no-ops in hand, counter floor on a
battlefield planeswalker, keyword grant on a battlefield creature. -/
theorem mutators_zone_guard_amended_witness :
    (handCard.zone ≠ Zone.battlefield ∧
      (handCard.modPower 3 = handCard ∧ handCard.modToughness 3 = handCard ∧
       handCard.modCounters 3 = handCard ∧ handCard.modPlusOne 3 = handCard)) ∧
    (loyalCard.zone = Zone.battlefield ∧
      0 ≤ loyalCard.front.counters + (loyalCard.modCounters (-5)).countersMod) ∧
    (bear.modKeywords Keyword.vigilance).keywordMods = bear.keywordMods ++ [Keyword.vigilance] :=
  ⟨⟨by decide, (mutators_zone_guard_amended handCard 3 Keyword.flying).1 (by decide)⟩,
   ⟨by decide, (mutators_zone_guard_amended loyalCard (-5) Keyword.flying).2.1 (by decide)⟩,
   (mutators_zone_guard_amended bear 0 Keyword.vigilance).2.2 (by decide) (by decide) (by decide)⟩

/-- C7 counterexample: a face-down morph creature on the battlefield keeps
its facedown flag (it is not reverted to the front face) and keeps its
granted keyword after `leave`. -/
theorem leave_facedown_counterexample :
    morphCard.zone = Zone.battlefield ∧ morphCard.facedown = true ∧
    morphCard.flip = false ∧
    (morphCard.leave).facedown = true ∧
    (morphCard.leave).keywordMods = [Keyword.flying] := by decide

/-- C7 as amended: `leave` zeroes the temporary power, toughness and counter
deltas, untaps, keeps granted keywords, +1/+1 delta and the facedown flag,
restores summoning sickness exactly for creatures without haste among their
parsed front keywords, and toggles the transformed flag exactly when the card
was transformed or face down AND is a flip (transform) card. -/
theorem leave_amended (c : Card) :
    (c.leave).powerMod = 0 ∧ (c.leave).toughnessMod = 0 ∧ (c.leave).countersMod = 0 ∧
    (c.leave).tapped = false ∧
    (c.leave).keywordMods = c.keywordMods ∧
    (c.leave).plusone = c.plusone ∧
    (c.leave).facedown = c.facedown ∧
    (c.leave).zone = c.zone ∧
    (c.leave).transformed =
      (if (c.transformed || c.facedown) = true ∧ c.flip = true then !c.transformed
       else c.transformed) ∧
    (c.leave).summoningSickness =
      (if CardType.creature ∈ c.front.typeLine ∧ Keyword.haste ∉ c.front.keywords then true
       else c.summoningSickness) := by
  unfold Card.leave Card.transform
  by_cases h1 : (c.transformed || c.facedown) = true <;>
    by_cases h2 : c.flip = true <;>
      by_cases h3 : CardType.creature ∈ c.front.typeLine ∧ Keyword.haste ∉ c.front.keywords <;>
        simp [h1, h2, h3]

/-- Unfolding the inner word loop of the keyword pass: it appends the
recognised normalised tokens to the accumulator and clears the flag when any
token is unrecognised. -/
theorem foldl_wordStep (ws : List (List Char)) (acc : List (List Char)) (valid : Bool) :
    ws.foldl wordStep (acc, valid) = (acc ++ wordsKw ws, valid && wordsValid ws) := by
  induction ws generalizing acc valid with
  | nil => simp [wordsKw, wordsValid]
  | cons w ws ih =>
    by_cases h : normWord w ∈ keywordStrings
    · simp [List.foldl_cons, wordStep, h, ih, wordsKw, wordsValid, List.filter_cons,
        List.all_cons]
    · simp [List.foldl_cons, wordStep, h, ih, wordsKw, wordsValid, List.filter_cons,
        List.all_cons]

/-- Unfolding the outer line loop of the keyword pass, for an arbitrary
starting state: the keyword list receives, after the k-th processed line, the
accumulated keyword tokens of every line up to k whenever the validity flag
has survived every line up to k. -/
theorem foldl_lineStep (ls : List (List Char)) (acc kws : List (List Char)) (valid : Bool) :
    (ls.foldl lineStep (acc, valid, kws)).2.2 =
      kws ++ ((List.range ls.length).map fun k =>
        if (valid && ((ls.take (k+1)).all lineValid)) = true then
          acc ++ (ls.take (k+1)).flatMap keywordTokens
        else []).flatten := by
  induction ls generalizing acc kws valid with
  | nil => simp
  | cons l ls ih =>
    have hstep : lineStep (acc, valid, kws) l =
        (acc ++ keywordTokens l, valid && lineValid l,
         kws ++ if (valid && lineValid l) = true then acc ++ keywordTokens l else []) := by
      simp only [lineStep, foldl_wordStep, keywordTokens, lineValid]
      split <;> simp
    rw [List.foldl_cons, hstep, ih]
    simp only [List.length_cons, List.range_succ_eq_map, List.map_cons, List.map_map,
      List.flatten_cons, List.take_succ_cons, List.take_zero, List.all_cons, List.all_nil,
      Bool.and_true, List.flatMap_cons, List.flatMap_nil, List.append_nil, List.append_assoc,
      Bool.and_assoc, Function.comp_def, Nat.succ_eq_add_one]

/-- C5 counterexample: for the text with the two all-keyword lines Flying and
Vigilance, Flying is added TWICE (the token accumulator is never reset
between lines), and for a text whose first line is not all keywords the
all-keyword second line Flying contributes nothing (the validity flag is
never reset), so lines are neither added exactly once nor judged
independently. -/
theorem parseKeywords_counterexample :
    parseKeywords ("Flying\nVigilance") =
      [("Flying").data, ("Flying").data, ("Vigilance").data] ∧
    parseKeywords ("Destroy target creature.\nFlying") = [] := by decide

/-- C5 as amended: the token accumulator and the validity flag persist across
lines, so the keyword list is the concatenation, over the line index k, of
the keyword tokens of ALL lines up to k — included exactly when every token
of every line up to k is a recognised keyword, and empty otherwise. -/
theorem parseKeywords_prefix_accumulation (text : String) :
    parseKeywords text =
      ((List.range (splitOnChar '\n' text.data).length).map fun k =>
        if ((splitOnChar '\n' text.data).take (k+1)).all lineValid = true then
          ((splitOnChar '\n' text.data).take (k+1)).flatMap keywordTokens
        else []).flatten := by
  have h := foldl_lineStep (splitOnChar '\n' text.data) [] [] true
  simpa [parseKeywords] using h

/-- Characterisation of a successful `kill`: either the card is
indestructible and nothing happens, or the card is moved to the graveyard
zone, erased from the battlefield list, and inserted at the head of the
graveyard list unless it is a token or the commander. -/
theorem kill_none_spec (g : GameState) (d : Card) (gk : GameState)
    (hk : kill g d = (gk, none)) :
    (Keyword.indestructible ∈ d.keywords ∧ gk = g) ∨
    (Keyword.indestructible ∉ d.keywords ∧
      gk.field = g.field.erase d ∧ gk.hand = g.hand ∧ gk.library = g.library ∧
      gk.exiled = g.exiled ∧
      ∃ d1, d.move Zone.graveyard = Except.ok d1 ∧
        ((CardType.token ∉ d1.type ∧ ¬d.commander ∧ gk.grave = d1 :: g.grave) ∨
         (¬(CardType.token ∉ d1.type ∧ ¬d.commander) ∧ gk.grave = g.grave))) := by
  by_cases hd : Keyword.indestructible ∈ d.keywords
  · have hkk : kill g d = (g, none) := by simp [kill, hd]
    rw [hkk] at hk
    injection hk with h1 h2
    exact Or.inl ⟨hd, h1.symm⟩
  · cases hm : d.move Zone.graveyard with
    | error e =>
      have hkk : kill g d = (g, some e) := by simp [kill, hd, hm]
      rw [hkk] at hk
      injection hk with h1 h2
      exact Option.noConfusion h2
    | ok d1 =>
      by_cases hP : CardType.token ∉ d1.type ∧ ¬d.commander
      · have hkk : kill g d =
            ({ g with field := g.field.erase d, grave := d1 :: g.grave }, none) := by
          simp [kill, hd, hm, hP]
        rw [hkk] at hk
        injection hk with h1 h2
        refine Or.inr ⟨hd, ?_, ?_, ?_, ?_, d1, rfl, Or.inl ⟨hP.1, hP.2, ?_⟩⟩ <;>
          rw [← h1]
      · have hkk : kill g d = ({ g with field := g.field.erase d }, none) := by
          simp [kill, hd, hm, hP]
          intro hA
          by_contra hB
          exact hP ⟨hA, hB⟩
        rw [hkk] at hk
        injection hk with h1 h2
        refine Or.inr ⟨hd, ?_, ?_, ?_, ?_, d1, rfl, Or.inr ⟨hP, ?_⟩⟩ <;>
          rw [← h1]

/-- Each occurrence of a non-indestructible card in the kill list removes one
occurrence of it from the battlefield list. -/
theorem killList_none_field_count (rs : List Card) (g gk : GameState) (c : Card)
    (h : killList g rs = (gk, none)) (hind : Keyword.indestructible ∉ c.keywords) :
    gk.field.count c = g.field.count c - rs.count c := by
  induction rs generalizing g with
  | nil =>
    injection h with h1 h2
    subst h1
    simp
  | cons d ds ih =>
    rcases hkd : kill g d with ⟨g1, e1⟩
    rw [killList, hkd] at h
    cases e1 with
    | some e => exact Option.noConfusion (congrArg Prod.snd h)
    | none =>
      have h2 := ih g1 h
      rcases kill_none_spec g d g1 hkd with ⟨hdind, heq⟩ | ⟨hdind, hf, -, -, -, d1, hm, hgr⟩
      · have hdc : c ≠ d := fun hh => hind (hh ▸ hdind)
        rw [List.count_cons_of_ne hdc, ← heq]
        exact h2
      · rw [hf] at h2
        by_cases hdc : c = d
        · subst hdc
          rw [List.count_erase_self] at h2
          rw [List.count_cons_self]
          omega
        · rw [List.count_erase_of_ne hdc] at h2
          rw [List.count_cons_of_ne hdc]
          exact h2

/-- `kill` only ever inserts into the graveyard list, so graveyard membership
is preserved across the kill loop. -/
theorem killList_none_grave_mem (rs : List Card) (g gk : GameState) (x : Card)
    (h : killList g rs = (gk, none)) (hx : x ∈ g.grave) : x ∈ gk.grave := by
  induction rs generalizing g with
  | nil =>
    injection h with h1 h2
    subst h1
    exact hx
  | cons d ds ih =>
    rcases hkd : kill g d with ⟨g1, e1⟩
    rw [killList, hkd] at h
    cases e1 with
    | some e => exact Option.noConfusion (congrArg Prod.snd h)
    | none =>
      rcases kill_none_spec g d g1 hkd with ⟨-, heq⟩ | ⟨-, -, -, -, -, d1, -, hgr⟩
      · refine ih g1 h ?_
        rw [heq]
        exact hx
      · refine ih g1 h ?_
        rcases hgr with ⟨-, -, hgr⟩ | ⟨-, hgr⟩
        · rw [hgr]
          exact List.mem_cons_of_mem d1 hx
        · rw [hgr]
          exact hx

/-- A non-indestructible, non-token, non-commander card occurring in the kill
list ends up (in its post-move form) in the graveyard list. -/
theorem killList_none_grave_of_mem (rs : List Card) (g gk : GameState) (c c1 : Card)
    (h : killList g rs = (gk, none)) (hc : c ∈ rs)
    (hind : Keyword.indestructible ∉ c.keywords)
    (hm : c.move Zone.graveyard = Except.ok c1)
    (ht : CardType.token ∉ c1.type) (hcm : ¬c.commander) : c1 ∈ gk.grave := by
  induction rs generalizing g with
  | nil => exact absurd hc (List.not_mem_nil c)
  | cons d ds ih =>
    rcases hkd : kill g d with ⟨g1, e1⟩
    rw [killList, hkd] at h
    cases e1 with
    | some e => exact Option.noConfusion (congrArg Prod.snd h)
    | none =>
      rcases List.mem_cons.mp hc with rfl | hc1
      · rcases kill_none_spec g c g1 hkd with ⟨hdind, -⟩ | ⟨-, -, -, -, -, d1, hm1, hgr⟩
        · exact absurd hdind hind
        · rw [hm] at hm1
          injection hm1 with hm1
          subst hm1
          rcases hgr with ⟨-, -, hgr⟩ | ⟨hP, -⟩
          · refine killList_none_grave_mem ds g1 gk c1 h ?_
            rw [hgr]
            exact List.mem_cons_self c1 g.grave
          · exact absurd ⟨ht, hcm⟩ hP
      · exact ih g1 h hc1

/-- The graveyard count of a token card is unchanged by the kill loop: only
non-token cards are ever inserted. -/
theorem killList_none_grave_count_token (rs : List Card) (g gk : GameState) (c1 : Card)
    (h : killList g rs = (gk, none)) (ht : CardType.token ∈ c1.type) :
    gk.grave.count c1 = g.grave.count c1 := by
  induction rs generalizing g with
  | nil =>
    injection h with h1 h2
    subst h1
    rfl
  | cons d ds ih =>
    rcases hkd : kill g d with ⟨g1, e1⟩
    rw [killList, hkd] at h
    cases e1 with
    | some e => exact Option.noConfusion (congrArg Prod.snd h)
    | none =>
      rcases kill_none_spec g d g1 hkd with ⟨-, heq⟩ | ⟨-, -, -, -, -, d1, -, hgr⟩
      · rw [ih g1 h, heq]
      · rcases hgr with ⟨hP, -, hgr⟩ | ⟨-, hgr⟩
        · have hne : c1 ≠ d1 := fun hh => hP (hh ▸ ht)
          rw [ih g1 h, hgr, List.count_cons_of_ne hne]
        · rw [ih g1 h, hgr]

/-- A card whose occurrences in a list each contribute at least one copy of
itself under `f` occurs in `l.flatMap f` at least as often as in `l`. -/
theorem count_le_count_flatMap (l : List Card) (f : Card → List Card) (c : Card)
    (h1 : 1 ≤ (f c).count c) : l.count c ≤ (l.flatMap f).count c := by
  induction l with
  | nil => simp
  | cons d ds ih =>
    rw [List.flatMap_cons, List.count_append]
    by_cases hdc : c = d
    · subst hdc
      rw [List.count_cons_self]
      omega
    · rw [List.count_cons_of_ne hdc]
      omega

/-- C4 counterexample: a 2/2 creature that received modPower(-2) has
effective toughness 2, so the state-based sweep does NOT destroy it (the
claimed scenario confuses power and toughness); and an indestructible
creature with effective toughness 0 also stays on the battlefield, so not
every 0-toughness battlefield creature is moved to the graveyard. -/
theorem stateBased_counterexample :
    bearPow.power = some 0 ∧ bearPow.toughness = some 2 ∧
    (stateBased g4a).1.field = [bearPow] ∧ (stateBased g4a).1.grave = [] ∧
    indBear.toughness = some 0 ∧
    Keyword.indestructible ∈ indBear.keywords ∧
    (stateBased g4b).1.field = [indBear] ∧ (stateBased g4b).1.grave = [] := by decide

/-- C4 as amended: after a state-based sweep that raised no error, every
battlefield creature with effective toughness 0 and every battlefield
planeswalker with counter count 0 that is NOT indestructible has left the
battlefield list; its post-move form is in the graveyard list when it is
neither a token nor the commander; and a removed token never changes the
graveyard list (its graveyard count is unchanged). -/
theorem stateBased_amended (g gk : GameState) (h : stateBased g = (gk, none)) (c : Card)
    (hc : c ∈ g.field)
    (hcond : (CardType.creature ∈ c.type ∧ c.toughness = some 0) ∨
             (CardType.planeswalker ∈ c.type ∧ c.counters = 0))
    (hind : Keyword.indestructible ∉ c.keywords) :
    c ∉ gk.field ∧
    ∀ c1, c.move Zone.graveyard = Except.ok c1 →
      (CardType.token ∉ c1.type → ¬c.commander → c1 ∈ gk.grave) ∧
      (CardType.token ∈ c1.type → gk.grave.count c1 = g.grave.count c1) := by
  have hkla : killList g (stateBasedRemoving g) = (gk, none) := h
  have hone : 1 ≤ ((if CardType.creature ∈ c.type ∧ c.toughness = some 0 then [c] else []) ++
      (if CardType.planeswalker ∈ c.type ∧ c.counters = 0 then [c] else [])).count c := by
    rcases hcond with ⟨h1, h2⟩ | ⟨h1, h2⟩ <;> simp [h1, h2, List.count_append]
  have hremcnt : g.field.count c ≤ (stateBasedRemoving g).count c := by
    unfold stateBasedRemoving
    exact count_le_count_flatMap g.field _ c hone
  constructor
  · have hcnt := killList_none_field_count (stateBasedRemoving g) g gk c hkla hind
    have hz : gk.field.count c = 0 := by omega
    exact fun hmem => (List.count_eq_zero.mp hz) hmem
  · have hmemrem : c ∈ stateBasedRemoving g := by
      have hpos : 0 < g.field.count c := List.count_pos_iff.mpr hc
      exact List.count_pos_iff.mp (lt_of_lt_of_le hpos hremcnt)
    intro c1 hm
    constructor
    · intro ht hcm
      exact killList_none_grave_of_mem (stateBasedRemoving g) g gk c c1 hkla hmemrem hind hm ht hcm
    · intro ht
      exact killList_none_grave_count_token (stateBasedRemoving g) g gk c1 hkla ht

/-- Witness for the amended C4: a 2/2 creature that received
modToughness(-2) is destroyed by the sweep and its post-move form sits in
the graveyard list. -/
theorem stateBased_amended_witness :
    stateBased g4w = (g4wRes, none) ∧ bearTough ∈ g4w.field ∧
    (CardType.creature ∈ bearTough.type ∧ bearTough.toughness = some 0) ∧
    Keyword.indestructible ∉ bearTough.keywords ∧
    (bearTough ∉ g4wRes.field ∧
      ∀ c1, bearTough.move Zone.graveyard = Except.ok c1 →
        (CardType.token ∉ c1.type → ¬bearTough.commander → c1 ∈ g4wRes.grave) ∧
        (CardType.token ∈ c1.type → g4wRes.grave.count c1 = g4w.grave.count c1)) :=
  ⟨by decide, by decide, by decide, by decide,
    stateBased_amended g4w g4wRes (by decide) bearTough (by decide)
      (Or.inl (by decide)) (by decide)⟩

/-- C6: (code defect witness) moving a non-commander card from the hand to
the command zone raises a ZoneError AFTER the card has been removed from the
hand list, so the game state observable at the boundary is NOT what it was
before the operation: the operation partially applied. -/
theorem move_zone_error_partial :
    (move g6 Zone.hand Zone.command oxCard id).2 =
      some ("Only the commander can be put in the command zone.") ∧
    g6.hand = [oxCard] ∧
    (move g6 Zone.hand Zone.command oxCard id).1.hand = [] ∧
    (move g6 Zone.hand Zone.command oxCard id).1 ≠ g6 := by decide

/-- C9: (code defect witness) drawing from an empty library raises no lookup
error — the IndexError is caught — but the handler's `p2Win = True` binds a
function-local variable (there is no `global p2Win`), so the global win flag
stays false and the game reports no winner. -/
theorem draw_empty_library_no_win :
    g9.library = [] ∧
    draw g9 1 = (g9, none) ∧
    g9.p2Win = false ∧
    checkVictory (draw g9 1).1 = false := by decide

/-- C8 counterexample: the game-level move of a battlefield card to exile
appends it at the END of the non-empty exile list, not at index 0. -/
theorem move_exile_append_counterexample :
    g8.exiled = [oldExiled] ∧
    (move g8 Zone.battlefield Zone.exile auraCard id).2 = none ∧
    (move g8 Zone.battlefield Zone.exile auraCard id).1.exiled =
      [oldExiled, { auraCard with zone := Zone.exile }] ∧
    oldExiled ≠ { auraCard with zone := Zone.exile } := by decide

/-- C8 as amended: discard, kill, sacrifice, the exile operation, and the
graveyard/exile branches of play insert the (post-move) card at index 0 of
the graveyard/exile list, and the generic move to the graveyard also inserts
at index 0; BUT the generic move to exile appends at the end of the exile
list; every operation that returns a card to the Library zone proper (generic
move to Library, play resolving to Library) shuffles the library immediately
after the insertion. -/
theorem insertion_order_amended :
    (∀ (g : GameState) (c : Card), (discard g c).grave = c.discard :: g.grave) ∧
    (∀ (g : GameState) (c c1 : Card), c.move Zone.graveyard = Except.ok c1 →
      CardType.token ∉ c1.type → ¬c.commander → Keyword.indestructible ∉ c.keywords →
      (kill g c).1.grave = c1 :: g.grave) ∧
    (∀ (g : GameState) (c c1 : Card), c.move Zone.graveyard = Except.ok c1 →
      CardType.token ∉ c1.type → ¬c.commander →
      (sacrifice g c).1.grave = c1 :: g.grave) ∧
    (∀ (g : GameState) (c c1 : Card), c.move Zone.exile = Except.ok c1 →
      CardType.token ∉ c1.type → ¬c.commander →
      (exileCard g c).1.exiled = c1 :: g.exiled) ∧
    (∀ (g : GameState) (fz : Zone) (c : Card) (shuf : List Card → List Card),
      CardType.token ∉ c.type →
      (move g fz Zone.graveyard c shuf).1.grave =
        (match c.move Zone.graveyard with | Except.ok c1 => c1 | Except.error _ => c) ::
          (moveSourceRemoved g fz c shuf).grave) ∧
    (∀ (g : GameState) (fz : Zone) (c : Card) (shuf : List Card → List Card),
      CardType.token ∉ c.type →
      (move g fz Zone.exile c shuf).1.exiled =
        (moveSourceRemoved g fz c shuf).exiled ++
          [match c.move Zone.exile with | Except.ok c1 => c1 | Except.error _ => c]) ∧
    (∀ (g : GameState) (fz : Zone) (c : Card) (shuf : List Card → List Card),
      CardType.token ∉ c.type →
      (move g fz Zone.library c shuf).1.library =
        shuf ((moveSourceRemoved g fz c shuf).library ++
          [match c.move Zone.library with | Except.ok c1 => c1 | Except.error _ => c])) ∧
    (∀ (g : GameState) (c : Card) (shuf : List Card → List Card),
      (c ∈ g.hand ∨ c.commander ∨ CardType.token ∈ c.type ∨
        (g.revealed ∧ g.library.head? = some c)) →
      (c.play.zone = Zone.graveyard →
        (play g c shuf).1.grave = c.play :: (playRemove g c).grave) ∧
      (c.play.zone = Zone.exile →
        (play g c shuf).1.exiled = c.play :: (playRemove g c).exiled) ∧
      (c.play.zone = Zone.library →
        (play g c shuf).1.library = shuf ((playRemove g c).library ++ [c.play]))) := by
  refine ⟨fun g c => rfl, ?_, ?_, ?_, ?_, ?_, ?_, ?_⟩
  · intro g c c1 hm ht hc hind
    simp [kill, hind, hm, ht, hc]
  · intro g c c1 hm ht hc
    simp [sacrifice, hm, ht, hc]
  · intro g c c1 hm ht hc
    simp [exileCard, hm, ht, hc]
  · intro g fz c shuf ht
    cases hres : c.move Zone.graveyard <;>
      simp [move, moveTargetTag, moveInsert, ht, hres]
  · intro g fz c shuf ht
    cases hres : c.move Zone.exile <;>
      simp [move, moveTargetTag, moveInsert, ht, hres]
  · intro g fz c shuf ht
    cases hres : c.move Zone.library <;>
      simp [move, moveTargetTag, moveInsert, ht, hres]
  · intro g c shuf hp
    refine ⟨?_, ?_, ?_⟩ <;> intro hz <;>
      · unfold play
        rw [if_pos hp]
        simp [hz]

/-- Witness for the amended C8 at concrete states: the kill insertion at
index 0 and the generic move appending to the exile list. -/
theorem insertion_order_amended_witness :
    (kill g4w bearTough).1.grave =
      { bear with zone := Zone.graveyard, summoningSickness := true } :: g4w.grave ∧
    (move g8 Zone.battlefield Zone.exile auraCard id).1.exiled =
      (moveSourceRemoved g8 Zone.battlefield auraCard id).exiled ++
        [{ auraCard with zone := Zone.exile }] :=
  ⟨by
    have h := insertion_order_amended.2.1 g4w bearTough
      { bear with zone := Zone.graveyard, summoningSickness := true }
      (by rfl) (by decide) (by decide) (by decide)
    exact h,
   by
    have h := insertion_order_amended.2.2.2.2.2.1 g8 Zone.battlefield auraCard id (by decide)
    simpa using h⟩

/-- Witness for the amended C5 at a concrete two-token text. -/
theorem parseKeywords_prefix_accumulation_witness :
    parseKeywords ("Flying, vigilance") =
      ((List.range (splitOnChar '\n' ("Flying, vigilance").data).length).map fun k =>
        if ((splitOnChar '\n' ("Flying, vigilance").data).take (k+1)).all lineValid = true then
          ((splitOnChar '\n' ("Flying, vigilance").data).take (k+1)).flatMap keywordTokens
        else []).flatten ∧
    parseKeywords ("Flying, vigilance") = [("Flying").data, ("Vigilance").data] :=
  ⟨parseKeywords_prefix_accumulation ("Flying, vigilance"), by decide⟩

/-- Witness for the amended C7 at the concrete face-down morph creature. -/
theorem leave_amended_witness :
    (morphCard.leave).powerMod = 0 ∧ (morphCard.leave).tapped = false ∧
    (morphCard.leave).facedown = morphCard.facedown :=
  ⟨(leave_amended morphCard).1, (leave_amended morphCard).2.2.2.1,
   (leave_amended morphCard).2.2.2.2.2.2.1⟩

end MTG
